import Mathlib

/-!
Verification of the libipt-rs decoding layer (src/src/qry.rs and
src/src/block/decoder.rs). The Rust sources are thin wrappers over the
packet-layer engine reached through FFI (the pt_qry_* / pt_blk_* entry
points); that engine's code is not part of src/, so its behaviour is
modelled here from the specification (packet classification, the
synchronization protocol and the decoder state machine), while the
wrapper functions themselves are translated line by line from the Rust
source, including their error plumbing through extract_pterr and
ensure_ptok.
-/

/-- Modelled from the spec: one binary-encoded unit of the trace stream.
The spec classifies packets into synchronization markers (PSB), execution
flow packets (conditional-branch decisions, indirect-branch targets) and
side-channel packets (core-bus-ratio, timestamps, MTC/CYC timing updates,
events). The bit-level encoding is out of scope, so each packet is its
decoded content. -/
inductive Packet where
  | psb (ip : Nat)
  | tnt (taken : Bool)
  | tip (target : Nat)
  | cbr (ratio : Nat)
  | tsc (t : Nat)
  | mtc (v : Nat)
  | cyc (v : Nat)
  | ev (payload : Nat)
deriving DecidableEq

/-- Modelled from the spec: the decode state of the engine behind a query
decoder. A decoder is either unsynchronized or synchronized; when
synchronized it holds a position in the trace buffer, the offset of the
last synchronization marker, the last established IP, the last-seen
core:bus ratio since the sync, timing state (whether a TSC baseline was
seen, the accumulated time, dropped MTC/CYC counters) and the pending
event queue. -/
structure Decoder where
  trace : List Packet
  synced : Bool
  pos : Nat
  syncOff : Nat
  ip : Nat
  lastCbr : Option Nat
  hasTsc : Bool
  timeVal : Nat
  lostMtc : Nat
  lostCyc : Nat
  pending : List Nat
deriving DecidableEq

/-- Modelled from the spec: a freshly allocated, never-synchronized decoder
over a trace buffer. -/
def freshDecoder (tr : List Packet) : Decoder :=
  { trace := tr, synced := false, pos := 0, syncOff := 0, ip := 0,
    lastCbr := none, hasTsc := false, timeVal := 0,
    lostMtc := 0, lostCyc := 0, pending := [] }

/-- Modelled from the spec: the state established by synchronizing on the
marker at offset `j` with payload IP `ip`: every successful sync resets
internal execution state (last IP, pending event queue, timing
accumulators, ratio observation) to the state implied by the marker. -/
def syncedAt (tr : List Packet) (j ip : Nat) : Decoder :=
  { trace := tr, synced := true, pos := j + 1, syncOff := j, ip := ip,
    lastCbr := none, hasTsc := false, timeVal := 0,
    lostMtc := 0, lostCyc := 0, pending := [] }

/-- Modelled from the spec: applying one side-channel packet to the decode
state. CBR updates the last-seen ratio; TSC establishes the time baseline;
MTC/CYC either advance time or, lacking a TSC baseline, bump the
corresponding lost counter (a recorded degradation, never a failure);
events join the pending queue. -/
def applySide (d : Decoder) (p : Packet) : Decoder :=
  match p with
  | .cbr r => { d with lastCbr := some r }
  | .tsc t => { d with hasTsc := true, timeVal := t }
  | .mtc v =>
      if d.hasTsc then { d with timeVal := d.timeVal + v }
      else { d with lostMtc := d.lostMtc + 1 }
  | .cyc v =>
      if d.hasTsc then { d with timeVal := d.timeVal + v }
      else { d with lostCyc := d.lostCyc + 1 }
  | .ev e => { d with pending := d.pending ++ [e] }
  | _ => d

/-- Modelled from the spec: whether a packet is an execution-flow packet,
the kind that ends an advance operation's scan. -/
def isFlow : Packet → Bool
  | .tnt _ => true
  | .tip _ => true
  | _ => false

/-- Modelled from the spec: scan the suffix of the trace starting at
absolute index `i`, applying side-channel packets to the state, until the
first execution-flow packet (returned with its absolute index) or the end
of the buffer. -/
def scanAux : List Packet → Nat → Decoder → Option (Nat × Packet × Decoder)
  | [], _, _ => none
  | p :: ps, i, d =>
      if isFlow p then some (i, p, d) else scanAux ps (i + 1) (applySide d p)

/-- Modelled from the spec: find the first synchronization marker at an
absolute index ≥ `i` in the given trace suffix, returning its index and
payload IP. -/
def findPsbAux : List Packet → Nat → Option (Nat × Nat)
  | [], _ => none
  | p :: ps, i =>
      match p with
      | .psb ip => some (i, ip)
      | _ => findPsbAux ps (i + 1)

/-- Modelled from the spec: find the last synchronization marker strictly
before index `bound`, scanning the whole trace and keeping the latest
qualifying marker. -/
def lastPsbAux : List Packet → Nat → Nat → Option (Nat × Nat) → Option (Nat × Nat)
  | [], _, _, acc => acc
  | p :: ps, i, bound, acc =>
      if bound ≤ i then acc
      else lastPsbAux ps (i + 1) bound
        (match p with
         | .psb ip => some (i, ip)
         | _ => acc)

/-- The error taxonomy of the wrapper's PtError (crate error module, spec
section 7): each fallible operation surfaces exactly one of these kinds. -/
inductive PtError where
  | nosync
  | badOpc
  | badPacket
  | badContext
  | eos
  | badQuery
  | nomap
  | noTime
  | noCbr
  | other
deriving DecidableEq

/-- The numeric error code of each kind, as in the engine's C error
enumeration (functions return the negated code on failure). -/
def pteCode : PtError → Int
  | .nosync => 3
  | .badOpc => 4
  | .badPacket => 5
  | .badContext => 6
  | .eos => 7
  | .badQuery => 8
  | .nomap => 9
  | .noTime => 11
  | .noCbr => 12
  | .other => 1

/-- Decoding a positive error code back into an error kind, as the
wrapper's error module does when building a PtError from a return value. -/
def ptErrorFromCode (c : Int) : PtError :=
  if c = 3 then .nosync
  else if c = 4 then .badOpc
  else if c = 5 then .badPacket
  else if c = 6 then .badContext
  else if c = 7 then .eos
  else if c = 8 then .badQuery
  else if c = 9 then .nomap
  else if c = 11 then .noTime
  else if c = 12 then .noCbr
  else .other

/-- The crate's extract_pterr: a non-negative return value is a success
status passed through, a negative one becomes the corresponding PtError. -/
def extract_pterr (c : Int) : Except PtError Int :=
  if 0 ≤ c then .ok c else .error (ptErrorFromCode (-c))

/-- The crate's ensure_ptok: like extract_pterr but the success value is
discarded. -/
def ensure_ptok (c : Int) : Except PtError Unit :=
  (extract_pterr c).map (fun _ => ())

/-- The Status bitmask of the wrapper (crate flags module, spec section 3):
the decoder-side conditions orthogonal to success, "end of trace reached"
(bit 0) and "event pending" (bit 1). -/
structure Status where
  eos : Bool
  event_pending : Bool
deriving DecidableEq

instance : Inhabited Status := ⟨⟨false, false⟩⟩

/-- The bitflags from_bits of Status: succeeds exactly on the integers
whose bits are all defined flag bits. -/
def Status.from_bits (n : Int) : Option Status :=
  if n = 0 then some ⟨false, false⟩
  else if n = 1 then some ⟨true, false⟩
  else if n = 2 then some ⟨false, true⟩
  else if n = 3 then some ⟨true, true⟩
  else none

/-- Modelled from the spec: the status bits the engine reports alongside a
success: bit 0 when the trace buffer is exhausted at the current position,
bit 1 when events are pending and must be drained. -/
def statusBits (d : Decoder) : Int :=
  (if d.trace.length ≤ d.pos then 1 else 0)
    + (if d.pending.isEmpty then 0 else 2)

/-- The CondBranch enumeration of qry.rs: Taken has discriminant 1,
NotTaken discriminant 0. -/
inductive CondBranch where
  | Taken
  | NotTaken
deriving DecidableEq

instance : Inhabited CondBranch := ⟨.NotTaken⟩

/-- The TryFromPrimitive conversion derived for CondBranch in qry.rs:
succeeds exactly on the two discriminants. -/
def CondBranch.try_from (n : Int) : Option CondBranch :=
  if n = 1 then some .Taken
  else if n = 0 then some .NotTaken
  else none

/-- Rust's Option unwrap on the success path. The safety claims prove the
argument is always some at every reachable call site, so the panic branch
is never taken; its value is the Inhabited default. -/
def unwrapD {α : Type} [Inhabited α] (o : Option α) : α :=
  o.getD default

/-- The Asid of the wrapper (spec section 3): cr3-equivalent and
vmcs-equivalent values. The wrapper constructs it with Asid::new(0, 0)
before the engine overwrites it. -/
structure Asid where
  cr3 : Nat
  vmcs : Nat
deriving DecidableEq

/-- Modelled from the spec: one named memory section of an Image: an
owning Asid (or none for "any") and a load-address range. The byte source
behind it is an external collaborator and is not modelled. -/
structure ImgSection where
  owner : Option Asid
  base : Nat
  size : Nat
deriving DecidableEq

/-- Modelled from the spec: an Image is an ordered collection of memory
sections. -/
structure Image where
  sections : List ImgSection
deriving DecidableEq

/-- Modelled from the spec: whether the Image maps address `ip` under
address space `a`: some section owns it whose Asid is `a` or "any". -/
def imageMaps (img : Image) (a : Asid) (ip : Nat) : Bool :=
  img.sections.any fun s =>
    (decide (s.owner = none) || decide (s.owner = some a))
      && decide (s.base ≤ ip) && decide (ip < s.base + s.size)

/-- The Block of the wrapper (spec section 3): one straight-line run of
instructions, with start IP, end IP, instruction count, ISA mode,
speculative flag and truncation flag. -/
structure Block where
  ip : Nat
  end_ip : Nat
  ninsn : Nat
  mode : Nat
  speculative : Bool
  truncated : Bool
deriving DecidableEq

/-- The zero-initialized block the wrapper passes by mutable reference
(mem::zeroed), returned unchanged when the engine fails. -/
def zeroBlock : Block :=
  { ip := 0, end_ip := 0, ninsn := 0, mode := 0,
    speculative := false, truncated := false }

/-- Modelled from the spec: the decode state of the engine behind a block
decoder: the query-level state plus the bound Image and the Asid the
decoder currently attributes instructions to. -/
structure BlockDecoderState where
  q : Decoder
  image : Image
  asid : Asid
deriving DecidableEq

/-- Modelled from the spec: the engine's conditional-branch query
(pt_qry_cond_branch, behind the FFI). Fails Nosync when unsynchronized.
Otherwise scans forward applying side-channel packets: reaching the end of
the buffer fails Eos, a flow packet other than a conditional branch fails
BadQuery (caller must invoke the matching operation), and a conditional
branch succeeds, writing taken as 0 or 1, advancing past it and reporting
status bits. Failures are all-or-nothing: they leave the state unchanged. -/
def pt_qry_cond_branch (d : Decoder) : Int × Int × Decoder :=
  if d.synced = false then (-(pteCode .nosync), 0, d)
  else
    match scanAux (d.trace.drop d.pos) d.pos d with
    | none => (-(pteCode .eos), 0, d)
    | some (i, .tnt b, d') =>
        let d2 := { d' with pos := i + 1 }
        (statusBits d2, if b then 1 else 0, d2)
    | some (_, _, _) => (-(pteCode .badQuery), 0, d)

/-- Modelled from the spec: the engine's indirect-branch query
(pt_qry_indirect_branch). Same scan as the conditional query; succeeds on
an indirect-branch packet, writing the resolved target IP and advancing
past it; a conditional branch next instead fails BadQuery (mirrored
mismatch failure mode). -/
def pt_qry_indirect_branch (d : Decoder) : Int × Nat × Decoder :=
  if d.synced = false then (-(pteCode .nosync), 0, d)
  else
    match scanAux (d.trace.drop d.pos) d.pos d with
    | none => (-(pteCode .eos), 0, d)
    | some (i, .tip t, d') =>
        let d2 := { d' with pos := i + 1, ip := t }
        (statusBits d2, t, d2)
    | some (_, _, _) => (-(pteCode .badQuery), 0, d)

/-- Modelled from the spec: the engine's event query (pt_qry_event): pops
one event from the pending queue formed while advancing; fails BadQuery
when none is pending, Nosync when unsynchronized. -/
def pt_qry_event (d : Decoder) : Int × Nat × Decoder :=
  if d.synced = false then (-(pteCode .nosync), 0, d)
  else
    match d.pending with
    | [] => (-(pteCode .badQuery), 0, d)
    | e :: rest =>
        let d2 := { d with pending := rest }
        (statusBits d2, e, d2)

/-- Modelled from the spec: the engine's core:bus ratio query
(pt_qry_core_bus_ratio): writes the last-seen ratio since the sync; fails
NoCbr when no CBR packet has been observed since the last sync, Nosync
when unsynchronized. -/
def pt_qry_core_bus_ratio (d : Decoder) : Int × Nat × Decoder :=
  if d.synced = false then (-(pteCode .nosync), 0, d)
  else
    match d.lastCbr with
    | none => (-(pteCode .noCbr), 0, d)
    | some v => (0, v, d)

/-- Modelled from the spec: the engine's time query (pt_qry_time): writes
the accumulated time and the dropped MTC/CYC counters; when no TSC
baseline has been seen since sync the time is relative-only and the call
returns the NoTime code while still writing the values for informational
use. Fails Nosync when unsynchronized. -/
def pt_qry_time (d : Decoder) : Int × Nat × Nat × Nat × Decoder :=
  if d.synced = false then (-(pteCode .nosync), 0, 0, 0, d)
  else if d.hasTsc then (0, d.timeVal, d.lostMtc, d.lostCyc, d)
  else (-(pteCode .noTime), d.timeVal, d.lostMtc, d.lostCyc, d)

/-- Modelled from the spec: the engine's position query
(pt_qry_get_offset): the current decoder position; Nosync when
unsynchronized. -/
def pt_qry_get_offset (d : Decoder) : Int × Nat :=
  if d.synced = false then (-(pteCode .nosync), 0)
  else (0, d.pos)

/-- Modelled from the spec: the engine's sync-position query
(pt_qry_get_sync_offset): the offset of the last synchronization point;
Nosync when unsynchronized. -/
def pt_qry_get_sync_offset (d : Decoder) : Int × Nat :=
  if d.synced = false then (-(pteCode .nosync), 0)
  else (0, d.syncOff)

/-- Modelled from the spec: the engine's forward synchronization
(pt_qry_sync_forward): if never synchronized the scan starts at the buffer
start, otherwise just after the current position; it lands on the next
marker, resetting execution state to the marker, writing the established
IP and reporting status bits; fails Eos when no marker remains. -/
def pt_qry_sync_forward (d : Decoder) : Int × Nat × Decoder :=
  let start := if d.synced then d.pos else 0
  match findPsbAux (d.trace.drop start) start with
  | none => (-(pteCode .eos), 0, d)
  | some (j, ip) =>
      let d2 := syncedAt d.trace j ip
      (statusBits d2, ip, d2)

/-- Modelled from the spec: the engine's backward synchronization
(pt_qry_sync_backward): if never synchronized the scan starts at the
buffer end, otherwise just before the current position; it lands on the
previous marker; fails Eos when none is found before the buffer start. -/
def pt_qry_sync_backward (d : Decoder) : Int × Nat × Decoder :=
  let bound := if d.synced then d.pos else d.trace.length
  match lastPsbAux d.trace 0 bound none with
  | none => (-(pteCode .eos), 0, d)
  | some (j, ip) =>
      let d2 := syncedAt d.trace j ip
      (statusBits d2, ip, d2)

/-- Modelled from the spec: the engine's manual synchronization
(pt_qry_sync_set): requires a synchronization marker to begin exactly at
the given offset, failing Nosync otherwise; an offset outside the trace
buffer fails Eos. -/
def pt_qry_sync_set (d : Decoder) (off : Nat) : Int × Nat × Decoder :=
  if d.trace.length ≤ off then (-(pteCode .eos), 0, d)
  else
    match d.trace[off]? with
    | some (.psb ip) =>
        let d2 := syncedAt d.trace off ip
        (statusBits d2, ip, d2)
    | _ => (-(pteCode .nosync), 0, d)

/-- Modelled from the spec: the engine's block reconstruction
(pt_blk_next). Fails Nosync when unsynchronized, and Nomap when the bound
Image has no mapping for the current IP under the current Asid. Otherwise
it walks instructions from the image until the next control-flow decision
requires trace: the scan consumes side-channel packets, failing Eos at the
end of the buffer; a flow packet ends the block, whose instruction-level
extent is abstracted (disassembly is a spec non-goal), and an
indirect-branch target seeds the next call's IP. Failures are
all-or-nothing: they leave the state unchanged and the block unwritten. -/
def pt_blk_next (b : BlockDecoderState) : Int × Block × BlockDecoderState :=
  if b.q.synced = false then (-(pteCode .nosync), zeroBlock, b)
  else if imageMaps b.image b.asid b.q.ip = false then
    (-(pteCode .nomap), zeroBlock, b)
  else
    match scanAux (b.q.trace.drop b.q.pos) b.q.pos b.q with
    | none => (-(pteCode .eos), zeroBlock, b)
    | some (i, .tip t, d') =>
        let d2 := { d' with pos := i + 1, ip := t }
        let blk : Block :=
          { ip := b.q.ip, end_ip := b.q.ip + (i - b.q.pos),
            ninsn := i + 1 - b.q.pos, mode := 0,
            speculative := false, truncated := false }
        (statusBits d2, blk, { b with q := d2 })
    | some (i, .tnt _, d') =>
        let d2 := { d' with pos := i + 1 }
        let blk : Block :=
          { ip := b.q.ip, end_ip := b.q.ip + (i - b.q.pos),
            ninsn := i + 1 - b.q.pos, mode := 0,
            speculative := false, truncated := false }
        (statusBits d2, blk, { b with q := d2 })
    | some (_, _, _) => (-(pteCode .badContext), zeroBlock, b)

/-- Modelled from the spec: the engine's event query for the block decoder
(pt_blk_event), same contract as the query-decoder variant. -/
def pt_blk_event (b : BlockDecoderState) : Int × Nat × BlockDecoderState :=
  let r := pt_qry_event b.q
  (r.1, r.2.1, { b with q := r.2.2 })

/-- Modelled from the spec: the engine's core:bus ratio query for the
block decoder (pt_blk_core_bus_ratio), same contract as the query-decoder
variant: on success it returns zero and writes the ratio through the out
parameter. -/
def pt_blk_core_bus_ratio (b : BlockDecoderState) : Int × Nat × BlockDecoderState :=
  let r := pt_qry_core_bus_ratio b.q
  (r.1, r.2.1, { b with q := r.2.2 })

/-- Modelled from the spec: the engine's time query for the block decoder
(pt_blk_time), same contract as the query-decoder variant. -/
def pt_blk_time (b : BlockDecoderState) : Int × Nat × Nat × Nat × BlockDecoderState :=
  let r := pt_qry_time b.q
  (r.1, r.2.1, r.2.2.1, r.2.2.2.1, { b with q := r.2.2.2.2 })

/-- Modelled from the spec: the engine's position query for the block
decoder (pt_blk_get_offset). -/
def pt_blk_get_offset (b : BlockDecoderState) : Int × Nat :=
  pt_qry_get_offset b.q

/-- Modelled from the spec: the engine's sync-position query for the block
decoder (pt_blk_get_sync_offset). -/
def pt_blk_get_sync_offset (b : BlockDecoderState) : Int × Nat :=
  pt_qry_get_sync_offset b.q

/-- Modelled from the spec: the engine's Asid query (pt_blk_asid): writes
the Asid the decoder currently attributes instructions to; available in
any synchronized state, failing only as Nosync when entirely
unsynchronized. -/
def pt_blk_asid (b : BlockDecoderState) : Int × Asid :=
  if b.q.synced = false then (-(pteCode .nosync), { cr3 := 0, vmcs := 0 })
  else (0, b.asid)

/-- Modelled from the spec: the engine's forward synchronization for the
block decoder (pt_blk_sync_forward), same search as the query-decoder
variant; the block decoder keeps its image binding across syncs. -/
def pt_blk_sync_forward (b : BlockDecoderState) : Int × BlockDecoderState :=
  let r := pt_qry_sync_forward b.q
  (r.1, { b with q := r.2.2 })

/-- Modelled from the spec: the engine's backward synchronization for the
block decoder (pt_blk_sync_backward). -/
def pt_blk_sync_backward (b : BlockDecoderState) : Int × BlockDecoderState :=
  let r := pt_qry_sync_backward b.q
  (r.1, { b with q := r.2.2 })

/-- Modelled from the spec: the engine's manual synchronization for the
block decoder (pt_blk_sync_set). -/
def pt_blk_sync_set (b : BlockDecoderState) (off : Nat) : Int × BlockDecoderState :=
  let r := pt_qry_sync_set b.q off
  (r.1, { b with q := r.2.2 })

/-- Modelled from the spec: rebinding the active Image
(pt_blk_set_image): a null image reverts to the internal default empty
image; always succeeds on a live decoder. -/
def pt_blk_set_image (b : BlockDecoderState) (img : Option Image) : Int × BlockDecoderState :=
  (0, { b with image := img.getD { sections := [] } })

/-- The wrapper's Event newtype over the raw engine event record (crate
event module); the payload is the modelled raw event datum. -/
structure Event where
  payload : Nat
deriving DecidableEq

/-- qry.rs cond_branch: calls the engine with a zero-initialized taken
out-parameter, then maps the non-negative status through
CondBranch::try_from(taken).unwrap() and Status::from_bits(s).unwrap(). -/
def QueryDecoder.cond_branch (d : Decoder) : Except PtError (CondBranch × Status) × Decoder :=
  let r := pt_qry_cond_branch d
  ((extract_pterr r.1).map
      (fun s => (unwrapD (CondBranch.try_from r.2.1), unwrapD (Status.from_bits s))),
    r.2.2)

/-- qry.rs core_bus_ratio: ensure_ptok on the engine's return value, then
the cbr out-parameter. -/
def QueryDecoder.core_bus_ratio (d : Decoder) : Except PtError Nat × Decoder :=
  let r := pt_qry_core_bus_ratio d
  ((ensure_ptok r.1).map (fun _ => r.2.1), r.2.2)

/-- qry.rs event: extract_pterr on the engine's return value, then the
event out-parameter paired with Status::from_bits(s).unwrap(). -/
def QueryDecoder.event (d : Decoder) : Except PtError (Event × Status) × Decoder :=
  let r := pt_qry_event d
  ((extract_pterr r.1).map
      (fun s => ({ payload := r.2.1 }, unwrapD (Status.from_bits s))),
    r.2.2)

/-- qry.rs offset: ensure_ptok, then the offset out-parameter. -/
def QueryDecoder.offset (d : Decoder) : Except PtError Nat :=
  let r := pt_qry_get_offset d
  (ensure_ptok r.1).map (fun _ => r.2)

/-- qry.rs sync_offset: ensure_ptok, then the offset out-parameter. -/
def QueryDecoder.sync_offset (d : Decoder) : Except PtError Nat :=
  let r := pt_qry_get_sync_offset d
  (ensure_ptok r.1).map (fun _ => r.2)

/-- qry.rs indirect_branch: ensure_ptok on the engine's return value, then
the ip out-parameter alone (the success value is the bare address). -/
def QueryDecoder.indirect_branch (d : Decoder) : Except PtError Nat × Decoder :=
  let r := pt_qry_indirect_branch d
  ((ensure_ptok r.1).map (fun _ => r.2.1), r.2.2)

/-- qry.rs sync_backward: extract_pterr, then the established IP paired
with Status::from_bits(s).unwrap(). -/
def QueryDecoder.sync_backward (d : Decoder) : Except PtError (Nat × Status) × Decoder :=
  let r := pt_qry_sync_backward d
  ((extract_pterr r.1).map (fun s => (r.2.1, unwrapD (Status.from_bits s))), r.2.2)

/-- qry.rs sync_forward: extract_pterr, then the established IP paired
with Status::from_bits(s).unwrap(). -/
def QueryDecoder.sync_forward (d : Decoder) : Except PtError (Nat × Status) × Decoder :=
  let r := pt_qry_sync_forward d
  ((extract_pterr r.1).map (fun s => (r.2.1, unwrapD (Status.from_bits s))), r.2.2)

/-- qry.rs sync_set: extract_pterr, then the established IP paired with
Status::from_bits(s).unwrap(). -/
def QueryDecoder.sync_set (d : Decoder) (off : Nat) : Except PtError (Nat × Status) × Decoder :=
  let r := pt_qry_sync_set d off
  ((extract_pterr r.1).map (fun s => (r.2.1, unwrapD (Status.from_bits s))), r.2.2)

/-- qry.rs time: ensure_ptok on the engine's return value, then the
(time, lost mtc, lost cyc) out-parameters; on failure the Err branch
carries only the PtError, so the out-parameters are dropped. -/
def QueryDecoder.time (d : Decoder) : Except PtError (Nat × Nat × Nat) × Decoder :=
  let r := pt_qry_time d
  ((ensure_ptok r.1).map (fun _ => (r.2.1, r.2.2.1, r.2.2.2.1)), r.2.2.2.2)

/-- block/decoder.rs asid: ensure_ptok on the engine's return value, then
the Asid out-parameter (initialized to Asid::new(0, 0)). -/
def BlockDecoder.asid (b : BlockDecoderState) : Except PtError Asid :=
  let r := pt_blk_asid b
  (ensure_ptok r.1).map (fun _ => r.2)

/-- block/decoder.rs core_bus_ratio: returns extract_pterr of the engine's
return value directly — the success value is the engine's status code, and
the cbr out-parameter is dropped without a map. -/
def BlockDecoder.core_bus_ratio (b : BlockDecoderState) : Except PtError Int × BlockDecoderState :=
  let r := pt_blk_core_bus_ratio b
  (extract_pterr r.1, r.2.2)

/-- block/decoder.rs event: extract_pterr, then the event out-parameter
paired with Status::from_bits(s).unwrap(). -/
def BlockDecoder.event (b : BlockDecoderState) : Except PtError (Event × Status) × BlockDecoderState :=
  let r := pt_blk_event b
  ((extract_pterr r.1).map
      (fun s => ({ payload := r.2.1 }, unwrapD (Status.from_bits s))),
    r.2.2)

/-- block/decoder.rs offset: ensure_ptok, then the offset out-parameter. -/
def BlockDecoder.offset (b : BlockDecoderState) : Except PtError Nat :=
  let r := pt_blk_get_offset b
  (ensure_ptok r.1).map (fun _ => r.2)

/-- block/decoder.rs sync_offset: ensure_ptok, then the offset
out-parameter. -/
def BlockDecoder.sync_offset (b : BlockDecoderState) : Except PtError Nat :=
  let r := pt_blk_get_sync_offset b
  (ensure_ptok r.1).map (fun _ => r.2)

/-- block/decoder.rs next: ensure_ptok on the engine's return value, then
the block out-parameter alone (the non-negative status is discarded). -/
def BlockDecoder.next (b : BlockDecoderState) : Except PtError Block × BlockDecoderState :=
  let r := pt_blk_next b
  ((ensure_ptok r.1).map (fun _ => r.2.1), r.2.2)

/-- block/decoder.rs set_image: ensure_ptok on the engine's return value
(a null pointer stands for None). -/
def BlockDecoder.set_image (b : BlockDecoderState) (img : Option Image) : Except PtError Unit × BlockDecoderState :=
  let r := pt_blk_set_image b img
  (ensure_ptok r.1, r.2)

/-- block/decoder.rs sync_backward: ensure_ptok on the engine's return
value (IP and status are not surfaced). -/
def BlockDecoder.sync_backward (b : BlockDecoderState) : Except PtError Unit × BlockDecoderState :=
  let r := pt_blk_sync_backward b
  (ensure_ptok r.1, r.2)

/-- block/decoder.rs sync_forward: ensure_ptok on the engine's return
value (IP and status are not surfaced). -/
def BlockDecoder.sync_forward (b : BlockDecoderState) : Except PtError Unit × BlockDecoderState :=
  let r := pt_blk_sync_forward b
  (ensure_ptok r.1, r.2)

/-- block/decoder.rs set_sync: ensure_ptok on the engine's return value. -/
def BlockDecoder.set_sync (b : BlockDecoderState) (off : Nat) : Except PtError Unit × BlockDecoderState :=
  let r := pt_blk_sync_set b off
  (ensure_ptok r.1, r.2)

/-- block/decoder.rs time: ensure_ptok on the engine's return value, then
the (time, lost mtc, lost cyc) out-parameters; on failure the Err branch
carries only the PtError, so the out-parameters are dropped. -/
def BlockDecoder.time (b : BlockDecoderState) : Except PtError (Nat × Nat × Nat) × BlockDecoderState :=
  let r := pt_blk_time b
  ((ensure_ptok r.1).map (fun _ => (r.2.1, r.2.2.1, r.2.2.2.1)), r.2.2.2.2)

theorem statusBits_nonneg (d : Decoder) : 0 ≤ statusBits d := by
  unfold statusBits
  split <;> split <;> norm_num

theorem extract_pterr_ok {c : Int} (h : 0 ≤ c) : extract_pterr c = .ok c := by
  simp [extract_pterr, h]

theorem extract_pterr_code (e : PtError) :
    extract_pterr (-(pteCode e)) = .error e := by
  cases e <;> rfl

theorem ensure_ptok_ok {c : Int} (h : 0 ≤ c) : ensure_ptok c = .ok () := by
  simp [ensure_ptok, extract_pterr_ok h, Except.map]

theorem ensure_ptok_code (e : PtError) :
    ensure_ptok (-(pteCode e)) = .error e := by
  cases e <;> rfl

theorem from_bits_statusBits (d : Decoder) :
    (Status.from_bits (statusBits d)).isSome = true := by
  unfold statusBits Status.from_bits
  split <;> split <;> simp

theorem extract_map_error {α : Type} {f : Int → α} {s : Int} {e : PtError}
    (h : (extract_pterr s).map f = Except.error e) : ¬ 0 ≤ s := by
  intro hs
  rw [extract_pterr_ok hs] at h
  simp [Except.map] at h

theorem pt_qry_cond_branch_frame (d : Decoder) :
    0 ≤ (pt_qry_cond_branch d).1 ∨ (pt_qry_cond_branch d).2.2 = d := by
  unfold pt_qry_cond_branch
  by_cases hs : d.synced = false
  · simp [hs]
  · simp only [hs, if_false]
    cases hscan : scanAux (d.trace.drop d.pos) d.pos d with
    | none => simp [hscan]
    | some x =>
        obtain ⟨i, p, d'⟩ := x
        cases p <;> simp [hscan, statusBits_nonneg]

theorem pt_qry_indirect_branch_frame (d : Decoder) :
    0 ≤ (pt_qry_indirect_branch d).1 ∨ (pt_qry_indirect_branch d).2.2 = d := by
  unfold pt_qry_indirect_branch
  by_cases hs : d.synced = false
  · simp [hs]
  · simp only [hs, if_false]
    cases hscan : scanAux (d.trace.drop d.pos) d.pos d with
    | none => simp [hscan]
    | some x =>
        obtain ⟨i, p, d'⟩ := x
        cases p <;> simp [hscan, statusBits_nonneg]

theorem pt_blk_next_frame (b : BlockDecoderState) :
    0 ≤ (pt_blk_next b).1 ∨ (pt_blk_next b).2.2 = b := by
  unfold pt_blk_next
  by_cases hs : b.q.synced = false
  · simp [hs]
  · simp only [hs, if_false]
    by_cases hm : imageMaps b.image b.asid b.q.ip = false
    · simp [hm]
    · simp only [hm, if_false]
      cases hscan : scanAux (b.q.trace.drop b.q.pos) b.q.pos b.q with
      | none => simp [hscan]
      | some x =>
          obtain ⟨i, p, d'⟩ := x
          cases p <;> simp [hscan, statusBits_nonneg]

theorem cond_branch_err_frame {d : Decoder} {e : PtError}
    (h : (QueryDecoder.cond_branch d).1 = .error e) :
    (QueryDecoder.cond_branch d).2 = d := by
  have hneg : ¬ 0 ≤ (pt_qry_cond_branch d).1 := extract_map_error h
  rcases pt_qry_cond_branch_frame d with h0 | h0
  · exact absurd h0 hneg
  · exact h0


theorem ensure_map_error {α : Type} {f : Unit → α} {s : Int} {e : PtError}
    (h : (ensure_ptok s).map f = Except.error e) : ¬ 0 ≤ s := by
  intro hs
  rw [ensure_ptok_ok hs] at h
  simp [Except.map] at h

theorem ensure_error {s : Int} {e : PtError}
    (h : ensure_ptok s = Except.error e) : ¬ 0 ≤ s := by
  intro hs
  rw [ensure_ptok_ok hs] at h
  simp at h

theorem indirect_branch_err_frame {d : Decoder} {e : PtError}
    (h : (QueryDecoder.indirect_branch d).1 = .error e) :
    (QueryDecoder.indirect_branch d).2 = d := by
  have hneg : ¬ 0 ≤ (pt_qry_indirect_branch d).1 := ensure_map_error h
  rcases pt_qry_indirect_branch_frame d with h0 | h0
  · exact absurd h0 hneg
  · exact h0

theorem next_err_frame {b : BlockDecoderState} {e : PtError}
    (h : (BlockDecoder.next b).1 = .error e) :
    (BlockDecoder.next b).2 = b := by
  have hneg : ¬ 0 ≤ (pt_blk_next b).1 := ensure_map_error h
  rcases pt_blk_next_frame b with h0 | h0
  · exact absurd h0 hneg
  · exact h0

theorem findPsbAux_sound :
    ∀ (l : List Packet) (i j ip : Nat),
      findPsbAux l i = some (j, ip) →
      i ≤ j ∧ l[j - i]? = some (.psb ip) := by
  intro l
  induction l with
  | nil => intro i j ip h; simp [findPsbAux] at h
  | cons p ps ih =>
      intro i j ip h
      unfold findPsbAux at h
      cases p <;>
        first
          | (simp at h
             obtain ⟨h1, h2⟩ := h
             subst h1; subst h2
             simp)
          | (obtain ⟨h1, h2⟩ := ih (i + 1) j ip h
             refine ⟨by omega, ?_⟩
             have hj : j - i = (j - (i + 1)) + 1 := by omega
             rw [hj, List.getElem?_cons_succ]
             exact h2)

theorem findPsbAux_complete :
    ∀ (l : List Packet) (i m ip : Nat),
      l[m]? = some (.psb ip) →
      ∃ j q, findPsbAux l i = some (j, q) ∧ j ≤ i + m := by
  intro l
  induction l with
  | nil => intro i m ip h; simp at h
  | cons p ps ih =>
      intro i m ip h
      cases p <;>
        first
          | (exact ⟨i, _, rfl, by omega⟩)
          | (cases m with
             | zero => simp at h
             | succ m' =>
                 rw [List.getElem?_cons_succ] at h
                 obtain ⟨j, q, hf, hle⟩ := ih (i + 1) m' ip h
                 exact ⟨j, q, hf, by omega⟩)

theorem lastPsbAux_sound :
    ∀ (l : List Packet) (i bound : Nat) (acc : Option (Nat × Nat)) (j ip : Nat),
      lastPsbAux l i bound acc = some (j, ip) →
      acc = some (j, ip) ∨ (i ≤ j ∧ j < bound ∧ l[j - i]? = some (.psb ip)) := by
  intro l
  induction l with
  | nil => intro i bound acc j ip h; simp [lastPsbAux] at h; exact Or.inl h
  | cons p ps ih =>
      intro i bound acc j ip h
      unfold lastPsbAux at h
      by_cases hb : bound ≤ i
      · rw [if_pos hb] at h
        exact Or.inl h
      · rw [if_neg hb] at h
        rcases ih (i + 1) bound _ j ip h with hacc | ⟨h1, h2, h3⟩
        · cases p <;> simp at hacc <;>
            first
              | (exact Or.inl hacc)
              | (obtain ⟨h1, h2⟩ := hacc
                 subst h1; subst h2
                 exact Or.inr ⟨Nat.le_refl i, by omega, by simp⟩)
        · refine Or.inr ⟨by omega, h2, ?_⟩
          have hj : j - i = (j - (i + 1)) + 1 := by omega
          rw [hj, List.getElem?_cons_succ]
          exact h3

theorem findPsb_trace {tr : List Packet} {s j ip : Nat}
    (h : findPsbAux (tr.drop s) s = some (j, ip)) :
    s ≤ j ∧ tr[j]? = some (.psb ip) := by
  obtain ⟨h1, h2⟩ := findPsbAux_sound (tr.drop s) s j ip h
  refine ⟨h1, ?_⟩
  rw [List.getElem?_drop] at h2
  have hs : s + (j - s) = j := by omega
  rw [hs] at h2
  exact h2

theorem lastPsb_trace {tr : List Packet} {bound j ip : Nat}
    (h : lastPsbAux tr 0 bound none = some (j, ip)) :
    j < bound ∧ tr[j]? = some (.psb ip) := by
  rcases lastPsbAux_sound tr 0 bound none j ip h with hacc | ⟨h1, h2, h3⟩
  · simp at hacc
  · simpa using ⟨h2, h3⟩

theorem sync_offset_syncedAt (tr : List Packet) (j ip : Nat) :
    QueryDecoder.sync_offset (syncedAt tr j ip) = .ok j := rfl

theorem qry_sync_forward_ok {d : Decoder} {r : Nat × Status}
    (h : (QueryDecoder.sync_forward d).1 = .ok r) :
    ∃ j, findPsbAux (d.trace.drop (if d.synced = true then d.pos else 0))
           (if d.synced = true then d.pos else 0) = some (j, r.1) ∧
         (QueryDecoder.sync_forward d).2 = syncedAt d.trace j r.1 := by
  unfold QueryDecoder.sync_forward pt_qry_sync_forward at h ⊢
  cases hf : findPsbAux (d.trace.drop (if d.synced = true then d.pos else 0))
      (if d.synced = true then d.pos else 0) with
  | none =>
      simp only [hf] at h
      simp [extract_pterr_code, Except.map] at h
  | some x =>
      obtain ⟨j, ip⟩ := x
      simp only [hf] at h ⊢
      rw [extract_pterr_ok (statusBits_nonneg _)] at h
      simp [Except.map] at h
      subst h
      exact ⟨j, rfl, rfl⟩

theorem qry_sync_backward_ok {d : Decoder} {r : Nat × Status}
    (h : (QueryDecoder.sync_backward d).1 = .ok r) :
    ∃ j, lastPsbAux d.trace 0 (if d.synced = true then d.pos else d.trace.length)
           none = some (j, r.1) ∧
         (QueryDecoder.sync_backward d).2 = syncedAt d.trace j r.1 := by
  unfold QueryDecoder.sync_backward pt_qry_sync_backward at h ⊢
  cases hf : lastPsbAux d.trace 0 (if d.synced = true then d.pos else d.trace.length) none with
  | none =>
      simp only [hf] at h
      simp [extract_pterr_code, Except.map] at h
  | some x =>
      obtain ⟨j, ip⟩ := x
      simp only [hf] at h ⊢
      rw [extract_pterr_ok (statusBits_nonneg _)] at h
      simp [Except.map] at h
      subst h
      exact ⟨j, rfl, rfl⟩

theorem qry_sync_set_ok {d : Decoder} {off : Nat} {r : Nat × Status}
    (h : (QueryDecoder.sync_set d off).1 = .ok r) :
    d.trace[off]? = some (.psb r.1) ∧
    (QueryDecoder.sync_set d off).2 = syncedAt d.trace off r.1 := by
  unfold QueryDecoder.sync_set pt_qry_sync_set at h ⊢
  by_cases hlen : d.trace.length ≤ off
  · rw [if_pos hlen] at h
    simp [extract_pterr_code, Except.map] at h
  · rw [if_neg hlen] at h ⊢
    cases hoff : d.trace[off]? with
    | none =>
        simp only [hoff] at h
        simp [extract_pterr_code, Except.map] at h
    | some p =>
        cases p <;> simp only [hoff] at h ⊢ <;>
          first
            | (simp [extract_pterr_code, Except.map] at h
               done)
            | (rw [extract_pterr_ok (statusBits_nonneg _)] at h
               simp [Except.map] at h
               subst h
               exact ⟨rfl, rfl⟩)

theorem pteCode_pos (e : PtError) : 0 < pteCode e := by
  cases e <;> decide

theorem statusBits_lt4 (d : Decoder) : statusBits d < 4 := by
  unfold statusBits
  split <;> split <;> norm_num

theorem from_bits_isSome_of_range {n : Int} (h0 : 0 ≤ n) (h4 : n < 4) :
    (Status.from_bits n).isSome = true := by
  have hn : n = 0 ∨ n = 1 ∨ n = 2 ∨ n = 3 := by omega
  rcases hn with h | h | h | h <;> simp [Status.from_bits, h]

theorem pt_qry_sync_set_nonneg {d : Decoder} {off : Nat}
    (h : 0 ≤ (pt_qry_sync_set d off).1) :
    ∃ ip, d.trace[off]? = some (.psb ip) ∧
      (pt_qry_sync_set d off).2.2 = syncedAt d.trace off ip := by
  unfold pt_qry_sync_set at h ⊢
  by_cases hlen : d.trace.length ≤ off
  · rw [if_pos hlen] at h
    have := pteCode_pos .eos
    omega
  · rw [if_neg hlen] at h ⊢
    cases hoff : d.trace[off]? with
    | none =>
        simp only [hoff] at h
        have := pteCode_pos .nosync
        omega
    | some p =>
        cases p <;> simp only [hoff] at h ⊢ <;>
          first
            | (exact ⟨_, rfl, rfl⟩)
            | (have hp := pteCode_pos .nosync
               omega)

theorem pt_qry_sync_forward_nonneg {d : Decoder}
    (h : 0 ≤ (pt_qry_sync_forward d).1) :
    ∃ j ip, findPsbAux (d.trace.drop (if d.synced = true then d.pos else 0))
        (if d.synced = true then d.pos else 0) = some (j, ip) ∧
      (pt_qry_sync_forward d).2.2 = syncedAt d.trace j ip := by
  unfold pt_qry_sync_forward at h ⊢
  cases hf : findPsbAux (d.trace.drop (if d.synced = true then d.pos else 0))
      (if d.synced = true then d.pos else 0) with
  | none =>
      simp only [hf] at h
      have := pteCode_pos .eos
      omega
  | some x =>
      obtain ⟨j, ip⟩ := x
      simp only [hf] at h ⊢
      exact ⟨j, ip, rfl, rfl⟩

theorem ensure_ptok_neg {s : Int} (h : ¬ 0 ≤ s) :
    ensure_ptok s = .error (ptErrorFromCode (-s)) := by
  simp [ensure_ptok, extract_pterr, h, Except.map]

/-- C6: after any successful sync operation, sync_offset() returns exactly
the offset of the marker just used: manual sync reports the requested
offset (where a marker is indeed present), and forward/backward search
report the offset of the marker they landed on. Holds for both the Query
Decoder and the Block Decoder. -/
theorem sync_offset_after_sync (d : Decoder) (b : BlockDecoderState) (off : Nat) :
    (∀ r : Nat × Status, (QueryDecoder.sync_set d off).1 = .ok r →
      QueryDecoder.sync_offset ((QueryDecoder.sync_set d off).2) = .ok off ∧
      d.trace[off]? = some (.psb r.1))
  ∧ (∀ r : Nat × Status, (QueryDecoder.sync_forward d).1 = .ok r →
      ∃ j, QueryDecoder.sync_offset ((QueryDecoder.sync_forward d).2) = .ok j ∧
        d.trace[j]? = some (.psb r.1))
  ∧ (∀ r : Nat × Status, (QueryDecoder.sync_backward d).1 = .ok r →
      ∃ j, QueryDecoder.sync_offset ((QueryDecoder.sync_backward d).2) = .ok j ∧
        d.trace[j]? = some (.psb r.1))
  ∧ ((BlockDecoder.set_sync b off).1 = .ok () →
      BlockDecoder.sync_offset ((BlockDecoder.set_sync b off).2) = .ok off)
  ∧ ((BlockDecoder.sync_forward b).1 = .ok () →
      ∃ j ip, BlockDecoder.sync_offset ((BlockDecoder.sync_forward b).2) = .ok j ∧
        b.q.trace[j]? = some (.psb ip)) := by
  refine ⟨?_, ?_, ?_, ?_, ?_⟩
  · intro r h
    obtain ⟨hoff, hst⟩ := qry_sync_set_ok h
    rw [hst]
    exact ⟨sync_offset_syncedAt _ _ _, hoff⟩
  · intro r h
    obtain ⟨j, hf, hst⟩ := qry_sync_forward_ok h
    rw [hst]
    exact ⟨j, sync_offset_syncedAt _ _ _, (findPsb_trace hf).2⟩
  · intro r h
    obtain ⟨j, hf, hst⟩ := qry_sync_backward_ok h
    rw [hst]
    exact ⟨j, sync_offset_syncedAt _ _ _, (lastPsb_trace hf).2⟩
  · intro h
    have h0 : 0 ≤ (pt_qry_sync_set b.q off).1 := by
      by_contra hneg
      have he : (BlockDecoder.set_sync b off).1
          = ensure_ptok (pt_qry_sync_set b.q off).1 := rfl
      rw [he, ensure_ptok_neg hneg] at h
      simp at h
    obtain ⟨ip, hoff, hst⟩ := pt_qry_sync_set_nonneg h0
    have h2 : (BlockDecoder.set_sync b off).2
        = { b with q := syncedAt b.q.trace off ip } := by
      show ({ b with q := (pt_qry_sync_set b.q off).2.2 }) = _
      rw [hst]
    rw [h2]
    rfl
  · intro h
    have h0 : 0 ≤ (pt_qry_sync_forward b.q).1 := by
      by_contra hneg
      have he : (BlockDecoder.sync_forward b).1
          = ensure_ptok (pt_qry_sync_forward b.q).1 := rfl
      rw [he, ensure_ptok_neg hneg] at h
      simp at h
    obtain ⟨j, ip, hf, hst⟩ := pt_qry_sync_forward_nonneg h0
    have h2 : (BlockDecoder.sync_forward b).2
        = { b with q := syncedAt b.q.trace j ip } := by
      show ({ b with q := (pt_qry_sync_forward b.q).2.2 }) = _
      rw [hst]
    rw [h2]
    exact ⟨j, ip, rfl, (findPsb_trace hf).2⟩

def trW6 : List Packet := [Packet.psb 7]

def bW6 : BlockDecoderState :=
  { q := freshDecoder trW6, image := { sections := [] },
    asid := { cr3 := 0, vmcs := 0 } }

/-- Witness for C6 on a one-marker trace. -/
theorem sync_offset_after_sync_w :
    (QueryDecoder.sync_offset ((QueryDecoder.sync_set (freshDecoder trW6) 0).2) = .ok 0
      ∧ (freshDecoder trW6).trace[0]? = some (.psb 7))
  ∧ (∃ j, QueryDecoder.sync_offset ((QueryDecoder.sync_forward (freshDecoder trW6)).2) = .ok j
      ∧ (freshDecoder trW6).trace[j]? = some (.psb 7))
  ∧ (∃ j, QueryDecoder.sync_offset ((QueryDecoder.sync_backward (freshDecoder trW6)).2) = .ok j
      ∧ (freshDecoder trW6).trace[j]? = some (.psb 7))
  ∧ BlockDecoder.sync_offset ((BlockDecoder.set_sync bW6 0).2) = .ok 0
  ∧ (∃ j ip, BlockDecoder.sync_offset ((BlockDecoder.sync_forward bW6).2) = .ok j
      ∧ bW6.q.trace[j]? = some (.psb ip)) := by
  have T := sync_offset_after_sync (freshDecoder trW6) bW6 0
  exact ⟨T.1 (7, ⟨true, false⟩) rfl,
    T.2.1 (7, ⟨true, false⟩) rfl,
    T.2.2.1 (7, ⟨true, false⟩) rfl,
    T.2.2.2.1 rfl,
    T.2.2.2.2 rfl⟩

/-- Modelled from the spec: repeated forward synchronization, the
reference way of reaching the n-th marker from a never-synchronized
decoder. -/
def syncForwardIter (d : Decoder) : Nat → Decoder
  | 0 => d
  | n + 1 => syncForwardIter ((QueryDecoder.sync_forward d).2) n

theorem pt_qry_sync_set_psb {d : Decoder} {off ip : Nat}
    (h : d.trace[off]? = some (.psb ip)) :
    pt_qry_sync_set d off
      = (statusBits (syncedAt d.trace off ip), ip, syncedAt d.trace off ip) := by
  have hlt : off < d.trace.length := (List.getElem?_eq_some.mp h).1
  unfold pt_qry_sync_set
  rw [if_neg (by omega), h]

theorem sync_forward_lands {d : Decoder} {j0 q0 : Nat}
    (hf : findPsbAux (d.trace.drop (if d.synced = true then d.pos else 0))
        (if d.synced = true then d.pos else 0) = some (j0, q0)) :
    (QueryDecoder.sync_forward d).2 = syncedAt d.trace j0 q0 := by
  show (pt_qry_sync_forward d).2.2 = _
  unfold pt_qry_sync_forward
  simp only [hf]

theorem reach_psb :
    ∀ (k : Nat) (s j ip : Nat) (d : Decoder),
      j + 1 - s ≤ k → s ≤ j → d.trace[j]? = some (.psb ip) →
      (if d.synced = true then d.pos else 0) = s →
      ∃ n, 1 ≤ n ∧ syncForwardIter d n = syncedAt d.trace j ip := by
  intro k
  induction k with
  | zero => intro s j ip d hk hs h hstart; omega
  | succ k ih =>
      intro s j ip d hk hs h hstart
      have hdrop : (d.trace.drop s)[j - s]? = some (Packet.psb ip) := by
        rw [List.getElem?_drop]
        have hsj : s + (j - s) = j := by omega
        rw [hsj]; exact h
      obtain ⟨j0, q0, hf0, hle⟩ :=
        findPsbAux_complete (d.trace.drop s) s (j - s) ip hdrop
      have hf : findPsbAux (d.trace.drop (if d.synced = true then d.pos else 0))
          (if d.synced = true then d.pos else 0) = some (j0, q0) := by
        rw [hstart]; exact hf0
      obtain ⟨hs0, hpsb0⟩ := @findPsb_trace d.trace s j0 q0 hf0
      have hstep : (QueryDecoder.sync_forward d).2 = syncedAt d.trace j0 q0 :=
        sync_forward_lands hf
      by_cases hej : j0 = j
      · subst hej
        have hq : q0 = ip := by
          rw [h] at hpsb0
          injection hpsb0 with he
          injection he with he2
          exact he2.symm
        exact ⟨1, Nat.le_refl 1, by
          show syncForwardIter ((QueryDecoder.sync_forward d).2) 0 = _
          rw [hstep, hq]
          rfl⟩
      · have hlt : j0 < j := by omega
        obtain ⟨n, hn1, hiter⟩ := ih (j0 + 1) j ip (syncedAt d.trace j0 q0)
          (by omega) (by omega) h rfl
        refine ⟨n + 1, by omega, ?_⟩
        show syncForwardIter ((QueryDecoder.sync_forward d).2) n = _
        rw [hstep]
        exact hiter

/-- C7: for every valid synchronization marker in the trace buffer, manual
synchronization at its offset succeeds, returns the marker's IP, and
establishes exactly the state that repeated forward synchronization from a
never-synchronized decoder establishes when it reaches that marker. -/
theorem sync_set_forward_equiv (tr : List Packet) (j ip : Nat)
    (h : tr[j]? = some (.psb ip)) :
    (∃ st, (QueryDecoder.sync_set (freshDecoder tr) j).1 = .ok (ip, st))
  ∧ (QueryDecoder.sync_set (freshDecoder tr) j).2 = syncedAt tr j ip
  ∧ (∃ n, 1 ≤ n ∧ syncForwardIter (freshDecoder tr) n = syncedAt tr j ip) := by
  have hraw : pt_qry_sync_set (freshDecoder tr) j
      = (statusBits (syncedAt tr j ip), ip, syncedAt tr j ip) :=
    @pt_qry_sync_set_psb (freshDecoder tr) j ip h
  refine ⟨⟨unwrapD (Status.from_bits (statusBits (syncedAt tr j ip))), ?_⟩, ?_, ?_⟩
  · show ((extract_pterr (pt_qry_sync_set (freshDecoder tr) j).1).map
        (fun s => ((pt_qry_sync_set (freshDecoder tr) j).2.1,
          unwrapD (Status.from_bits s)))) = _
    rw [hraw, extract_pterr_ok (statusBits_nonneg _)]
    rfl
  · show (pt_qry_sync_set (freshDecoder tr) j).2.2 = _
    rw [hraw]
  · exact reach_psb (j + 1) 0 j ip (freshDecoder tr) (by omega) (by omega) h rfl

def trW7 : List Packet :=
  [Packet.tnt true, Packet.psb 7, Packet.cbr 2, Packet.psb 9]

/-- Witness for C7 at the second marker of a two-marker trace. -/
theorem sync_set_forward_equiv_w :
    (∃ st, (QueryDecoder.sync_set (freshDecoder trW7) 3).1 = .ok (9, st))
  ∧ (QueryDecoder.sync_set (freshDecoder trW7) 3).2 = syncedAt trW7 3 9
  ∧ (∃ n, 1 ≤ n ∧ syncForwardIter (freshDecoder trW7) n = syncedAt trW7 3 9) :=
  sync_set_forward_equiv trW7 3 9 rfl

/-- C4: end-of-trace is a stable terminal condition: once cond_branch,
indirect_branch or next has returned Eos, the call left the decoder
unchanged, and calling the same advance operation again without an
intervening sync or new trace data returns Eos again. -/
theorem eos_terminal_stable (d : Decoder) (b : BlockDecoderState) :
    ((QueryDecoder.cond_branch d).1 = .error .eos →
      (QueryDecoder.cond_branch d).2 = d ∧
      (QueryDecoder.cond_branch ((QueryDecoder.cond_branch d).2)).1 = .error .eos)
  ∧ ((QueryDecoder.indirect_branch d).1 = .error .eos →
      (QueryDecoder.indirect_branch d).2 = d ∧
      (QueryDecoder.indirect_branch ((QueryDecoder.indirect_branch d).2)).1 = .error .eos)
  ∧ ((BlockDecoder.next b).1 = .error .eos →
      (BlockDecoder.next b).2 = b ∧
      (BlockDecoder.next ((BlockDecoder.next b).2)).1 = .error .eos) := by
  refine ⟨fun h => ?_, fun h => ?_, fun h => ?_⟩
  · have hf := cond_branch_err_frame h
    exact ⟨hf, by rw [hf]; exact h⟩
  · have hf := indirect_branch_err_frame h
    exact ⟨hf, by rw [hf]; exact h⟩
  · have hf := next_err_frame h
    exact ⟨hf, by rw [hf]; exact h⟩

def dW4 : Decoder := syncedAt [Packet.psb 5] 0 5

def bW4 : BlockDecoderState :=
  { q := syncedAt [Packet.psb 5] 0 5,
    image := { sections := [{ owner := none, base := 0, size := 16 }] },
    asid := { cr3 := 0, vmcs := 0 } }

/-- Witness for C4 on a decoder synchronized at the end of its trace. -/
theorem eos_terminal_stable_w :
    ((QueryDecoder.cond_branch dW4).2 = dW4 ∧
      (QueryDecoder.cond_branch ((QueryDecoder.cond_branch dW4).2)).1 = .error .eos)
  ∧ ((QueryDecoder.indirect_branch dW4).2 = dW4 ∧
      (QueryDecoder.indirect_branch ((QueryDecoder.indirect_branch dW4).2)).1 = .error .eos)
  ∧ ((BlockDecoder.next bW4).2 = bW4 ∧
      (BlockDecoder.next ((BlockDecoder.next bW4).2)).1 = .error .eos) :=
  ⟨(eos_terminal_stable dW4 bW4).1 rfl,
   (eos_terminal_stable dW4 bW4).2.1 rfl,
   (eos_terminal_stable dW4 bW4).2.2 rfl⟩

/-- C5: every query/advance operation other than the sync operations fails
immediately with Nosync on an unsynchronized decoder and produces no
success value, for both decoders. -/
theorem unsync_ops_fail (d : Decoder) (b : BlockDecoderState)
    (hd : d.synced = false) (hb : b.q.synced = false) :
    (QueryDecoder.cond_branch d).1 = .error .nosync
  ∧ (QueryDecoder.indirect_branch d).1 = .error .nosync
  ∧ (QueryDecoder.event d).1 = .error .nosync
  ∧ QueryDecoder.offset d = .error .nosync
  ∧ QueryDecoder.sync_offset d = .error .nosync
  ∧ (QueryDecoder.time d).1 = .error .nosync
  ∧ (QueryDecoder.core_bus_ratio d).1 = .error .nosync
  ∧ (BlockDecoder.next b).1 = .error .nosync
  ∧ (BlockDecoder.event b).1 = .error .nosync
  ∧ BlockDecoder.offset b = .error .nosync
  ∧ BlockDecoder.sync_offset b = .error .nosync
  ∧ BlockDecoder.asid b = .error .nosync
  ∧ (BlockDecoder.time b).1 = .error .nosync
  ∧ (BlockDecoder.core_bus_ratio b).1 = .error .nosync := by
  refine ⟨?_, ?_, ?_, ?_, ?_, ?_, ?_, ?_, ?_, ?_, ?_, ?_, ?_, ?_⟩ <;>
    simp [QueryDecoder.cond_branch, QueryDecoder.indirect_branch,
      QueryDecoder.event, QueryDecoder.offset, QueryDecoder.sync_offset,
      QueryDecoder.time, QueryDecoder.core_bus_ratio,
      BlockDecoder.next, BlockDecoder.event, BlockDecoder.offset,
      BlockDecoder.sync_offset, BlockDecoder.asid, BlockDecoder.time,
      BlockDecoder.core_bus_ratio,
      pt_qry_cond_branch, pt_qry_indirect_branch, pt_qry_event,
      pt_qry_get_offset, pt_qry_get_sync_offset, pt_qry_time,
      pt_qry_core_bus_ratio, pt_blk_next, pt_blk_event,
      pt_blk_get_offset, pt_blk_get_sync_offset, pt_blk_asid,
      pt_blk_time, pt_blk_core_bus_ratio,
      hd, hb, ensure_ptok_code, extract_pterr_code, Except.map]

def dW5 : Decoder := freshDecoder [Packet.psb 5, Packet.tnt true]

def bW5 : BlockDecoderState :=
  { q := freshDecoder [Packet.psb 5, Packet.tip 9],
    image := { sections := [{ owner := none, base := 0, size := 16 }] },
    asid := { cr3 := 0, vmcs := 0 } }

/-- Witness for C5 on freshly allocated, never-synchronized decoders. -/
theorem unsync_ops_fail_w :
    (QueryDecoder.cond_branch dW5).1 = .error .nosync
  ∧ (QueryDecoder.indirect_branch dW5).1 = .error .nosync
  ∧ (QueryDecoder.event dW5).1 = .error .nosync
  ∧ QueryDecoder.offset dW5 = .error .nosync
  ∧ QueryDecoder.sync_offset dW5 = .error .nosync
  ∧ (QueryDecoder.time dW5).1 = .error .nosync
  ∧ (QueryDecoder.core_bus_ratio dW5).1 = .error .nosync
  ∧ (BlockDecoder.next bW5).1 = .error .nosync
  ∧ (BlockDecoder.event bW5).1 = .error .nosync
  ∧ BlockDecoder.offset bW5 = .error .nosync
  ∧ BlockDecoder.sync_offset bW5 = .error .nosync
  ∧ BlockDecoder.asid bW5 = .error .nosync
  ∧ (BlockDecoder.time bW5).1 = .error .nosync
  ∧ (BlockDecoder.core_bus_ratio bW5).1 = .error .nosync :=
  unsync_ops_fail dW5 bW5 rfl rfl

/-- C8: on a synchronized Block Decoder whose bound Image has no mapping
for the current IP under the current Asid, next() fails with Nomap and
leaves the decoder state unchanged; and in general every failing next()
leaves the decoder unchanged, so no partial block is ever surfaced. -/
theorem next_nomap_no_mutation (b : BlockDecoderState)
    (h1 : b.q.synced = true) (h2 : imageMaps b.image b.asid b.q.ip = false) :
    (BlockDecoder.next b).1 = .error .nomap
  ∧ (BlockDecoder.next b).2 = b
  ∧ ∀ (b' : BlockDecoderState) (e : PtError),
      (BlockDecoder.next b').1 = .error e → (BlockDecoder.next b').2 = b' := by
  refine ⟨?_, ?_, fun b' e h => next_err_frame h⟩ <;>
    simp [BlockDecoder.next, pt_blk_next, h1, h2, ensure_ptok_code, Except.map]

def bW8 : BlockDecoderState :=
  { q := syncedAt [Packet.psb 5, Packet.tip 9] 0 5,
    image := { sections := [] },
    asid := { cr3 := 0, vmcs := 0 } }

/-- Witness for C8 on a synchronized block decoder bound to an empty
image. -/
theorem next_nomap_no_mutation_w :
    (BlockDecoder.next bW8).1 = .error .nomap
  ∧ (BlockDecoder.next bW8).2 = bW8 :=
  ⟨(next_nomap_no_mutation bW8 rfl rfl).1,
   (next_nomap_no_mutation bW8 rfl rfl).2.1⟩

/-- C9: on every successful conditional-branch query the engine writes the
taken value as exactly 0 or 1, so the CondBranch conversion always
succeeds and the unwrap in the wrapper never panics. -/
theorem cond_branch_taken_in_range (d : Decoder)
    (h : 0 ≤ (pt_qry_cond_branch d).1) :
    ((pt_qry_cond_branch d).2.1 = 0 ∨ (pt_qry_cond_branch d).2.1 = 1)
  ∧ (CondBranch.try_from (pt_qry_cond_branch d).2.1).isSome = true := by
  unfold pt_qry_cond_branch at h ⊢
  by_cases hs : d.synced = false
  · rw [if_pos hs] at h
    have := pteCode_pos .nosync
    omega
  · rw [if_neg hs] at h ⊢
    cases hscan : scanAux (d.trace.drop d.pos) d.pos d with
    | none =>
        simp only [hscan] at h
        have := pteCode_pos .eos
        omega
    | some x =>
        obtain ⟨i, p, d'⟩ := x
        simp only [hscan] at h ⊢
        cases p <;>
          first
            | (have hp := pteCode_pos .badQuery
               omega)
            | (rename_i bt
               cases bt <;> simp [CondBranch.try_from])

def dW9 : Decoder := syncedAt [Packet.psb 5, Packet.tnt true] 0 5

/-- Witness for C9 on a successful conditional-branch query. -/
theorem cond_branch_taken_in_range_w :
    ((pt_qry_cond_branch dW9).2.1 = 0 ∨ (pt_qry_cond_branch dW9).2.1 = 1)
  ∧ (CondBranch.try_from (pt_qry_cond_branch dW9).2.1).isSome = true :=
  cond_branch_taken_in_range dW9 (by decide)

theorem pt_qry_cond_branch_lt4 (d : Decoder) : (pt_qry_cond_branch d).1 < 4 := by
  unfold pt_qry_cond_branch
  by_cases hs : d.synced = false
  · rw [if_pos hs]
    have := pteCode_pos .nosync
    simp
    omega
  · rw [if_neg hs]
    cases hscan : scanAux (d.trace.drop d.pos) d.pos d with
    | none =>
        simp only [hscan]
        have := pteCode_pos .eos
        simp
        omega
    | some x =>
        obtain ⟨i, p, d'⟩ := x
        simp only [hscan]
        cases p <;>
          first
            | (have hp := pteCode_pos .badQuery
               simp
               omega)
            | (exact statusBits_lt4 _)

theorem pt_qry_event_lt4 (d : Decoder) : (pt_qry_event d).1 < 4 := by
  unfold pt_qry_event
  by_cases hs : d.synced = false
  · rw [if_pos hs]
    have := pteCode_pos .nosync
    simp
    omega
  · rw [if_neg hs]
    cases hp : d.pending with
    | nil =>
        simp only [hp]
        have := pteCode_pos .badQuery
        simp
        omega
    | cons e rest =>
        simp only [hp]
        exact statusBits_lt4 _

theorem pt_qry_sync_forward_lt4 (d : Decoder) : (pt_qry_sync_forward d).1 < 4 := by
  unfold pt_qry_sync_forward
  cases hf : findPsbAux (d.trace.drop (if d.synced = true then d.pos else 0))
      (if d.synced = true then d.pos else 0) with
  | none =>
      simp only [hf]
      have := pteCode_pos .eos
      simp
      omega
  | some x =>
      obtain ⟨j, ip⟩ := x
      simp only [hf]
      exact statusBits_lt4 _

theorem pt_qry_sync_backward_lt4 (d : Decoder) : (pt_qry_sync_backward d).1 < 4 := by
  unfold pt_qry_sync_backward
  cases hf : lastPsbAux d.trace 0 (if d.synced = true then d.pos else d.trace.length) none with
  | none =>
      simp only [hf]
      have := pteCode_pos .eos
      simp
      omega
  | some x =>
      obtain ⟨j, ip⟩ := x
      simp only [hf]
      exact statusBits_lt4 _

theorem pt_qry_sync_set_lt4 (d : Decoder) (off : Nat) :
    (pt_qry_sync_set d off).1 < 4 := by
  unfold pt_qry_sync_set
  by_cases hlen : d.trace.length ≤ off
  · rw [if_pos hlen]
    have := pteCode_pos .eos
    simp
    omega
  · rw [if_neg hlen]
    cases hoff : d.trace[off]? with
    | none =>
        simp only [hoff]
        have := pteCode_pos .nosync
        simp
        omega
    | some p =>
        cases p <;> simp only [hoff] <;>
          first
            | (exact statusBits_lt4 _)
            | (have hp := pteCode_pos .nosync
               simp
               omega)

theorem pt_blk_event_lt4 (b : BlockDecoderState) : (pt_blk_event b).1 < 4 :=
  pt_qry_event_lt4 b.q

/-- C10: whenever one of the status-returning operations (event, the three
sync operations, cond_branch) succeeds, the non-negative status code the
engine returned is a valid Status bitmask, so the from_bits unwrap in the
wrapper never panics, on either decoder. -/
theorem status_codes_valid (d : Decoder) (b : BlockDecoderState) (off : Nat) :
    (0 ≤ (pt_qry_cond_branch d).1 →
      (Status.from_bits (pt_qry_cond_branch d).1).isSome = true)
  ∧ (0 ≤ (pt_qry_event d).1 →
      (Status.from_bits (pt_qry_event d).1).isSome = true)
  ∧ (0 ≤ (pt_qry_sync_forward d).1 →
      (Status.from_bits (pt_qry_sync_forward d).1).isSome = true)
  ∧ (0 ≤ (pt_qry_sync_backward d).1 →
      (Status.from_bits (pt_qry_sync_backward d).1).isSome = true)
  ∧ (0 ≤ (pt_qry_sync_set d off).1 →
      (Status.from_bits (pt_qry_sync_set d off).1).isSome = true)
  ∧ (0 ≤ (pt_blk_event b).1 →
      (Status.from_bits (pt_blk_event b).1).isSome = true) :=
  ⟨fun h => from_bits_isSome_of_range h (pt_qry_cond_branch_lt4 d),
   fun h => from_bits_isSome_of_range h (pt_qry_event_lt4 d),
   fun h => from_bits_isSome_of_range h (pt_qry_sync_forward_lt4 d),
   fun h => from_bits_isSome_of_range h (pt_qry_sync_backward_lt4 d),
   fun h => from_bits_isSome_of_range h (pt_qry_sync_set_lt4 d off),
   fun h => from_bits_isSome_of_range h (pt_blk_event_lt4 b)⟩

def dW10 : Decoder :=
  { syncedAt [Packet.psb 5, Packet.psb 6, Packet.tnt true] 0 5 with pending := [3] }

def bW10 : BlockDecoderState :=
  { q := { syncedAt [Packet.psb 5] 0 5 with pending := [4] },
    image := { sections := [] },
    asid := { cr3 := 0, vmcs := 0 } }

/-- Witness for C10 on successful calls of each status-returning
operation. -/
theorem status_codes_valid_w :
    (Status.from_bits (pt_qry_cond_branch dW10).1).isSome = true
  ∧ (Status.from_bits (pt_qry_event dW10).1).isSome = true
  ∧ (Status.from_bits (pt_qry_sync_forward dW10).1).isSome = true
  ∧ (Status.from_bits (pt_qry_sync_backward dW10).1).isSome = true
  ∧ (Status.from_bits (pt_qry_sync_set dW10 0).1).isSome = true
  ∧ (Status.from_bits (pt_blk_event bW10).1).isSome = true :=
  ⟨(status_codes_valid dW10 bW10 0).1 (by decide),
   (status_codes_valid dW10 bW10 0).2.1 (by decide),
   (status_codes_valid dW10 bW10 0).2.2.1 (by decide),
   (status_codes_valid dW10 bW10 0).2.2.2.1 (by decide),
   (status_codes_valid dW10 bW10 0).2.2.2.2.1 (by decide),
   (status_codes_valid dW10 bW10 0).2.2.2.2.2 (by decide)⟩

def trC1 : List Packet := [Packet.psb 5, Packet.cbr 20, Packet.tnt true]

def dC1 : Decoder := (QueryDecoder.cond_branch (syncedAt trC1 0 5)).2

def bC1 : BlockDecoderState :=
  { q := dC1, image := { sections := [] }, asid := { cr3 := 0, vmcs := 0 } }

/-- C1: on a decoder that has observed the CBR packet 0x14 since the last
sync, the Query Decoder wrapper returns the ratio 0x14, but the Block
Decoder wrapper returns the engine's status code 0 instead of the ratio
(extract_pterr's success value, with no map over the cbr out-parameter),
even though the engine wrote 0x14 into the out-parameter. -/
theorem cbr_wrapper_divergence :
    dC1.lastCbr = some 20
  ∧ (QueryDecoder.core_bus_ratio dC1).1 = .ok 20
  ∧ (BlockDecoder.core_bus_ratio bC1).1 = .ok 0
  ∧ (pt_blk_core_bus_ratio bC1).2.1 = 20 :=
  ⟨rfl, rfl, rfl, rfl⟩

def dC2 : Decoder := { syncedAt [Packet.psb 5] 0 5 with timeVal := 42 }

def bC2 : BlockDecoderState :=
  { q := dC2, image := { sections := [] }, asid := { cr3 := 0, vmcs := 0 } }

/-- C2: on a synchronized decoder with no TSC baseline since the sync,
time() fails with NoTime as specified, but the wrapper's Err carries no
values: the relative time 42 and the zero lost counters the engine wrote
into the out-parameters are dropped by ensure_ptok's error branch instead
of being returned alongside the failure. -/
theorem time_wrapper_divergence :
    dC2.hasTsc = false
  ∧ (QueryDecoder.time dC2).1 = .error .noTime
  ∧ (pt_qry_time dC2).2.1 = 42
  ∧ (pt_qry_time dC2).2.2.1 = 0
  ∧ (pt_qry_time dC2).2.2.2.1 = 0
  ∧ (BlockDecoder.time bC2).1 = .error .noTime :=
  ⟨rfl, rfl, rfl, rfl, rfl, rfl⟩

def dC3 : Decoder := syncedAt [Packet.psb 5, Packet.tip 77] 0 5

def bC3 : BlockDecoderState :=
  { q := dC3, image := { sections := [{ owner := none, base := 0, size := 100 }] },
    asid := { cr3 := 0, vmcs := 0 } }

/-- C3: a successful indirect_branch() returns only the bare target IP and
a successful next() returns only the Block: both wrappers route the
engine's non-negative status through ensure_ptok, which discards it, so no
Status bitmask accompanies the success value. -/
theorem status_dropped_divergence :
    (QueryDecoder.indirect_branch dC3).1 = .ok 77
  ∧ 0 ≤ (pt_qry_indirect_branch dC3).1
  ∧ (BlockDecoder.next bC3).1
      = .ok { ip := 5, end_ip := 5, ninsn := 1, mode := 0,
              speculative := false, truncated := false }
  ∧ 0 ≤ (pt_blk_next bC3).1 :=
  ⟨rfl, by decide, rfl, by decide⟩
